import Mathlib

/-!
A shallow embedding of `src/cacheMock.js`, a Node.js module-cache mocking
utility, together with proofs of its specification's testable properties.

Modelling choices:

* JavaScript objects are modelled by references (`Ref`, a `Nat`) into an
  explicit heap mapping references to export mappings.  This keeps object
  identity observable: `{ ...exports }` allocates a fresh reference holding a
  copy of the mapping, `Object.assign` mutates the heap cell in place, and
  `cachedModule.exports = original` swaps the reference stored in the module
  record without touching the heap.
* An export mapping (`ExpMap`) is an association list of string keys to
  opaque values; `Object.assign` and spread copy own enumerable keys in
  order, which the list operations below reproduce.
* The host module system (an external collaborator in the spec) is an
  environment `Env` supplying `resolve` (Node's `require.resolve`, which
  throws on failure, modelled as `Option`) and `loadExports` (the exports a
  real load of a module would produce).
* `State` carries the two mutable stores the code touches — `require.cache`
  (`requireCache`) and the internal snapshot store `cacheMock.cache`
  (`mockCache`) — plus two ghost fields used only to state specification
  properties and never read by the operations: `loads` records which modules
  had their real initialization code executed, and `ghostPre` records each
  loaded module's pre-mock exports (set at load/preload time, never changed
  by mocking or restoring).
* Operations that can throw `require.resolve`'s error return
  `Except ResolutionError _`.
-/

abbrev Ref := Nat
abbrev Key := String
abbrev Value := String
abbrev ExpMap := List (Key × Value)
abbrev Heap := List (Ref × ExpMap)

/-- Association-list lookup (first match wins, like property lookup). -/
def lookupA {κ α : Type} [DecidableEq κ] (k : κ) : List (κ × α) → Option α
  | [] => none
  | (k', v) :: t => if k = k' then some v else lookupA k t

/-- Association-list update of the first entry with the given key; the list
is unchanged when the key is absent (used only on present keys). -/
def setA {κ α : Type} [DecidableEq κ] (k : κ) (v : α) : List (κ × α) → List (κ × α)
  | [] => []
  | (k', v') :: t => if k' = k then (k, v) :: t else (k', v') :: setA k v t

/-- Association-list deletion of the first entry with the given key
(JavaScript `delete obj[k]`). -/
def eraseA {κ α : Type} [DecidableEq κ] (k : κ) : List (κ × α) → List (κ × α)
  | [] => []
  | (k', v') :: t => if k' = k then t else (k', v') :: eraseA k t

/-- Read a heap cell; unallocated cells read as an empty object (never hit by
the operations on well-formed states). -/
def heapGet (h : Heap) (r : Ref) : ExpMap := (lookupA r h).getD []

/-- Write a heap cell.  A cons suffices because `heapGet` takes the first
match. -/
def heapSet (h : Heap) (r : Ref) (m : ExpMap) : Heap := (r, m) :: h

/-- `target[k] = v` on an object's own keys: overwrite in place when the key
exists (keeping its position), append otherwise. -/
def setKey (m : ExpMap) (k : Key) (v : Value) : ExpMap :=
  if (lookupA k m).isSome then
    m.map (fun kv => if kv.1 = k then (k, v) else kv)
  else
    m ++ [(k, v)]

/-- `Object.assign(target, src)`: assign each key of `src` in order. -/
def objAssign (target src : ExpMap) : ExpMap :=
  src.foldl (fun acc kv => setKey acc kv.1 kv.2) target

/-- JavaScript truthiness of the optional `path` argument: `undefined`
(`none`) and the empty string are falsy. -/
def truthy : Option String → Bool
  | none => false
  | some s => !(s = "")

/-- `require.resolve` failed on the given identifier. -/
inductive ResolutionError : Type where
  | cannotResolve : String → ResolutionError
  deriving DecidableEq, Repr

/-- The slice of a Node `Module` record the code touches: the reference to
its exports object and its `loaded` flag. -/
structure ModuleRecord : Type where
  exportsRef : Ref
  loaded : Bool
  deriving DecidableEq, Repr

/-- The mutable stores of the program.  `requireCache` is `require.cache`,
`mockCache` is `cacheMock.cache` (identifier ↦ reference to the stored
snapshot object).  `loads` and `ghostPre` are specification ghost state (see
the header comment); the operations write but never read them. -/
structure State : Type where
  heap : Heap
  nextRef : Ref
  requireCache : List (String × ModuleRecord)
  mockCache : List (String × Ref)
  loads : List String
  ghostPre : List (String × ExpMap)
  deriving DecidableEq, Repr

/-- The host module system: `require.resolve` and the exports a real load
would produce for a canonical identifier. -/
structure Env : Type where
  resolve : String → Option String
  loadExports : String → ExpMap

/-- A real `require(resolvedPath)` of a module absent from `require.cache`:
executes the module's initialization code (recorded in the `loads` ghost),
allocates a fresh exports object, and inserts the record. -/
def realLoad (env : Env) (s : State) (resolvedPath : String) : State × ModuleRecord :=
  let r := s.nextRef
  let m : ModuleRecord := ⟨r, true⟩
  ({ s with
      heap := heapSet s.heap r (env.loadExports resolvedPath)
      nextRef := r + 1
      requireCache := (resolvedPath, m) :: s.requireCache
      loads := resolvedPath :: s.loads
      ghostPre := (resolvedPath, env.loadExports resolvedPath) :: s.ghostPre }, m)

/-- `function cacheMock(path, mockExports)` from `src/cacheMock.js`:
resolve; require the module first if it is not in the cache; store a shallow
copy of the current exports under `cacheMock.cache[resolvedPath]` only if no
entry exists (`??=`); then `Object.assign(cachedModule.exports, mockExports)`
in place. -/
def cacheMock (env : Env) (s : State) (path : String) (mockExports : ExpMap) :
    Except ResolutionError State :=
  match env.resolve path with
  | none => Except.error (ResolutionError.cannotResolve path)
  | some resolvedPath =>
    let s1cm : State × ModuleRecord :=
      match lookupA resolvedPath s.requireCache with
      | some m => (s, m)
      | none => realLoad env s resolvedPath
    let s1 := s1cm.1
    let cachedModule := s1cm.2
    let s2 :=
      match lookupA resolvedPath s1.mockCache with
      | some _ => s1
      | none =>
        { s1 with
            heap := heapSet s1.heap s1.nextRef (heapGet s1.heap cachedModule.exportsRef)
            nextRef := s1.nextRef + 1
            mockCache := (resolvedPath, s1.nextRef) :: s1.mockCache }
    Except.ok { s2 with
      heap := heapSet s2.heap cachedModule.exportsRef
        (objAssign (heapGet s2.heap cachedModule.exportsRef) mockExports) }

/-- The body of `restore`'s loop for one resolved path: if both the module
record and the stored original exist, write the snapshot reference back as
the record's exports and delete the `cacheMock.cache` entry; otherwise skip
silently. -/
def cacheMock.restoreOne (s : State) (resolvedPath : String) : State :=
  match lookupA resolvedPath s.requireCache, lookupA resolvedPath s.mockCache with
  | some cachedModule, some original =>
    { s with
        requireCache :=
          setA resolvedPath { cachedModule with exportsRef := original } s.requireCache
        mockCache := eraseA resolvedPath s.mockCache }
  | some _, none => s
  | none, _ => s

/-- `cacheMock.restore(path)`: the entries iterated are
`path ? [require.resolve(path)] : Object.keys(cacheMock.cache)`, so a falsy
`path` (absent or empty string) restores every registered entry without
resolving anything. -/
def cacheMock.restore (env : Env) (s : State) (path : Option String) :
    Except ResolutionError State :=
  if truthy path then
    match path with
    | some p =>
      match env.resolve p with
      | none => Except.error (ResolutionError.cannotResolve p)
      | some resolvedPath => Except.ok (cacheMock.restoreOne s resolvedPath)
    | none =>
      -- unreachable: `truthy none = false`
      Except.ok ((s.mockCache.map Prod.fst).foldl cacheMock.restoreOne s)
  else
    Except.ok ((s.mockCache.map Prod.fst).foldl cacheMock.restoreOne s)

/-- `cacheMock.require(modulePath, exports = \x7b\x7d)` (the preloader):
resolve; if no record exists, synthesize a new `Module` with `loaded = true`
and the supplied exports object and insert it into `require.cache` — without
executing the module's real code (the `loads` ghost is untouched).  The
JavaScript function body contains no `return` statement, so the call
evaluates to `undefined` in both branches: modelled by the `Option
ModuleRecord` component always being `none`. -/
def cacheMock.require (env : Env) (s : State) (modulePath : String) (exps : ExpMap) :
    Except ResolutionError (State × Option ModuleRecord) :=
  match env.resolve modulePath with
  | none => Except.error (ResolutionError.cannotResolve modulePath)
  | some resolvedPath =>
    match lookupA resolvedPath s.requireCache with
    | some _ => Except.ok (s, none)
    | none =>
      let r := s.nextRef
      let m : ModuleRecord := ⟨r, true⟩
      Except.ok
        ({ s with
            heap := heapSet s.heap r exps
            nextRef := r + 1
            requireCache := (resolvedPath, m) :: s.requireCache
            ghostPre := (resolvedPath, exps) :: s.ghostPre }, none)

/-- The mapping currently exported by the module cached under a canonical
identifier (empty when the module is not loaded). -/
def exportsMap (s : State) (resolvedPath : String) : ExpMap :=
  match lookupA resolvedPath s.requireCache with
  | some m => heapGet s.heap m.exportsRef
  | none => []

/-- The pre-mock exports of a module, read off the ghost record. -/
def ghostMap (s : State) (resolvedPath : String) : ExpMap :=
  (lookupA resolvedPath s.ghostPre).getD []

/-- The state at process start: nothing loaded, nothing mocked. -/
def initState : State := ⟨[], 0, [], [], [], []⟩

/-- One observable step: an external real `require` of a not-yet-cached
module, or a successful call of one of the three public operations. -/
inductive Step (env : Env) : State → State → Prop where
  | extLoad {s : State} {resolvedPath : String}
      (h : lookupA resolvedPath s.requireCache = none) :
      Step env s (realLoad env s resolvedPath).1
  | mockOp {s s' : State} {path : String} {mockExports : ExpMap}
      (h : cacheMock env s path mockExports = Except.ok s') : Step env s s'
  | restoreOp {s s' : State} {path : Option String}
      (h : cacheMock.restore env s path = Except.ok s') : Step env s s'
  | preloadOp {s s' : State} {path : String} {exps : ExpMap} {ret : Option ModuleRecord}
      (h : cacheMock.require env s path exps = Except.ok (s', ret)) : Step env s s'

/-- States reachable from process start by any sequence of loads and
operations. -/
inductive Reachable (env : Env) : State → Prop where
  | init : Reachable env initState
  | step {s s' : State} (hs : Reachable env s) (h : Step env s s') : Reachable env s'

/-- A concrete host for witnesses: every nonempty identifier resolves to
itself, the empty identifier does not resolve, and every real load exports
`a ↦ A, b ↦ B`. -/
def env0 : Env :=
  ⟨fun s => if s = "" then none else some s, fun _ => [("a", "A"), ("b", "B")]⟩

example : truthy (some "") = false := by decide
example : (cacheMock env0 initState "" []).isOk = false := by decide
example : (cacheMock env0 initState "m" []).isOk = true := by decide

/-! ### Lemmas about the association-list and heap primitives -/

theorem lookupA_cons_self {κ α : Type} [DecidableEq κ] (k : κ) (v : α) (t : List (κ × α)) :
    lookupA k ((k, v) :: t) = some v := by
  simp [lookupA]

theorem lookupA_cons_ne {κ α : Type} [DecidableEq κ] {k k' : κ} (h : k' ≠ k) (v : α)
    (t : List (κ × α)) : lookupA k' ((k, v) :: t) = lookupA k' t := by
  simp [lookupA, h]

theorem lookupA_eq_none {κ α : Type} [DecidableEq κ] {k : κ} {l : List (κ × α)}
    (h : k ∉ l.map Prod.fst) : lookupA k l = none := by
  induction l with
  | nil => rfl
  | cons kv t ih =>
    simp only [List.map_cons, List.mem_cons] at h
    push_neg at h
    obtain ⟨h1, h2⟩ := h
    obtain ⟨k', v'⟩ := kv
    rw [lookupA_cons_ne h1, ih h2]

theorem mem_keys_of_lookupA {κ α : Type} [DecidableEq κ] {k : κ} {l : List (κ × α)} {v : α}
    (h : lookupA k l = some v) : k ∈ l.map Prod.fst := by
  by_contra hmem
  rw [lookupA_eq_none hmem] at h
  exact Option.noConfusion h

theorem lookupA_append_of_none {κ α : Type} [DecidableEq κ] {k : κ} {a : List (κ × α)}
    (b : List (κ × α)) (h : lookupA k a = none) : lookupA k (a ++ b) = lookupA k b := by
  induction a with
  | nil => rfl
  | cons kv t ih =>
    obtain ⟨k', v'⟩ := kv
    by_cases hk : k = k'
    · subst hk; rw [lookupA_cons_self] at h; exact Option.noConfusion h
    · rw [lookupA_cons_ne hk] at h
      rw [List.cons_append, lookupA_cons_ne hk, ih h]

theorem lookupA_append_of_some {κ α : Type} [DecidableEq κ] {k : κ} {a : List (κ × α)} {v : α}
    (b : List (κ × α)) (h : lookupA k a = some v) : lookupA k (a ++ b) = some v := by
  induction a with
  | nil => exact Option.noConfusion h
  | cons kv t ih =>
    obtain ⟨k', v'⟩ := kv
    by_cases hk : k = k'
    · subst hk
      rw [lookupA_cons_self] at h
      rw [List.cons_append, lookupA_cons_self, h]
    · rw [lookupA_cons_ne hk] at h
      rw [List.cons_append, lookupA_cons_ne hk, ih h]

theorem setA_keys {κ α : Type} [DecidableEq κ] (k : κ) (v : α) (l : List (κ × α)) :
    (setA k v l).map Prod.fst = l.map Prod.fst := by
  induction l with
  | nil => rfl
  | cons kv t ih =>
    obtain ⟨k', v'⟩ := kv
    by_cases hk : k' = k
    · subst hk; simp [setA]
    · simp [setA, hk, ih]

theorem lookupA_setA_self {κ α : Type} [DecidableEq κ] {k : κ} {l : List (κ × α)}
    (v : α) (h : (lookupA k l).isSome) : lookupA k (setA k v l) = some v := by
  induction l with
  | nil => simp [lookupA] at h
  | cons kv t ih =>
    obtain ⟨k', v'⟩ := kv
    by_cases hk : k = k'
    · subst hk
      simp only [setA, if_pos rfl]
      exact lookupA_cons_self k v t
    · rw [lookupA_cons_ne hk] at h
      have hk' : ¬(k' = k) := fun he => hk he.symm
      simp only [setA, if_neg hk']
      rw [lookupA_cons_ne hk, ih h]

theorem lookupA_setA_ne {κ α : Type} [DecidableEq κ] {k k' : κ} (hne : k' ≠ k)
    (v : α) (l : List (κ × α)) : lookupA k' (setA k v l) = lookupA k' l := by
  induction l with
  | nil => rfl
  | cons kv t ih =>
    obtain ⟨k1, v1⟩ := kv
    by_cases hk : k1 = k
    · subst hk
      simp [setA, lookupA_cons_ne hne]
    · simp only [setA, if_neg hk]
      by_cases h1 : k' = k1
      · subst h1; rw [lookupA_cons_self, lookupA_cons_self]
      · rw [lookupA_cons_ne h1, lookupA_cons_ne h1, ih]

theorem eraseA_cons_self {κ α : Type} [DecidableEq κ] (k : κ) (v : α) (t : List (κ × α)) :
    eraseA k ((k, v) :: t) = t := by
  simp [eraseA]

theorem lookupA_eraseA_ne {κ α : Type} [DecidableEq κ] {k k' : κ} (hne : k' ≠ k)
    (l : List (κ × α)) : lookupA k' (eraseA k l) = lookupA k' l := by
  induction l with
  | nil => rfl
  | cons kv t ih =>
    obtain ⟨k1, v1⟩ := kv
    by_cases hk : k1 = k
    · subst hk
      rw [eraseA_cons_self, lookupA_cons_ne hne]
    · simp only [eraseA, if_neg hk]
      by_cases h1 : k' = k1
      · subst h1; rw [lookupA_cons_self, lookupA_cons_self]
      · rw [lookupA_cons_ne h1, lookupA_cons_ne h1, ih]

theorem eraseA_keys_sublist {κ α : Type} [DecidableEq κ] (k : κ) (l : List (κ × α)) :
    ((eraseA k l).map Prod.fst).Sublist (l.map Prod.fst) := by
  induction l with
  | nil => simp [eraseA]
  | cons kv t ih =>
    obtain ⟨k1, v1⟩ := kv
    by_cases hk : k1 = k
    · subst hk
      rw [eraseA_cons_self]
      simp only [List.map_cons]
      exact (List.sublist_cons_self _ _)
    · simp only [eraseA, if_neg hk, List.map_cons]
      exact ih.cons₂ k1

theorem lookupA_eraseA_self {κ α : Type} [DecidableEq κ] {k : κ} {l : List (κ × α)}
    (hnd : (l.map Prod.fst).Nodup) : lookupA k (eraseA k l) = none := by
  induction l with
  | nil => rfl
  | cons kv t ih =>
    obtain ⟨k1, v1⟩ := kv
    simp only [List.map_cons, List.nodup_cons] at hnd
    obtain ⟨hmem, hnd'⟩ := hnd
    by_cases hk : k1 = k
    · subst hk
      rw [eraseA_cons_self]
      exact lookupA_eq_none hmem
    · simp only [eraseA, if_neg hk]
      have h1 : k ≠ k1 := fun he => hk he.symm
      rw [lookupA_cons_ne h1, ih hnd']

theorem heapGet_heapSet_self (h : Heap) (r : Ref) (m : ExpMap) :
    heapGet (heapSet h r m) r = m := by
  simp [heapGet, heapSet, lookupA_cons_self]

theorem heapGet_heapSet_ne {r r' : Ref} (h : Heap) (m : ExpMap) (hne : r' ≠ r) :
    heapGet (heapSet h r m) r' = heapGet h r' := by
  simp [heapGet, heapSet, lookupA_cons_ne hne]

/-! ### Lemmas about `setKey` and `objAssign` -/

theorem lookupA_map_setEntry {k : Key} {m : ExpMap} (v : Value)
    (h : (lookupA k m).isSome) :
    lookupA k (m.map (fun kv => if kv.1 = k then (k, v) else kv)) = some v := by
  induction m with
  | nil => simp [lookupA] at h
  | cons kv t ih =>
    obtain ⟨k1, v1⟩ := kv
    by_cases hk : k1 = k
    · subst hk
      simp only [List.map_cons, if_pos rfl]
      exact lookupA_cons_self k1 v _
    · have h1 : k ≠ k1 := fun he => hk he.symm
      rw [lookupA_cons_ne h1] at h
      simp only [List.map_cons, if_neg hk]
      rw [lookupA_cons_ne h1, ih h]

theorem lookupA_map_setEntry_ne {k k' : Key} (hne : k' ≠ k) (m : ExpMap) (v : Value) :
    lookupA k' (m.map (fun kv => if kv.1 = k then (k, v) else kv)) = lookupA k' m := by
  induction m with
  | nil => rfl
  | cons kv t ih =>
    obtain ⟨k1, v1⟩ := kv
    by_cases hk : k1 = k
    · subst hk
      simp [lookupA_cons_ne hne, ih]
    · simp only [List.map_cons, if_neg hk]
      by_cases h1 : k' = k1
      · subst h1; rw [lookupA_cons_self, lookupA_cons_self]
      · rw [lookupA_cons_ne h1, lookupA_cons_ne h1, ih]

theorem lookupA_setKey_self (m : ExpMap) (k : Key) (v : Value) :
    lookupA k (setKey m k v) = some v := by
  unfold setKey
  by_cases h : (lookupA k m).isSome
  · rw [if_pos h]
    exact lookupA_map_setEntry v h
  · rw [if_neg h]
    have hnone : lookupA k m = none := by
      cases he : lookupA k m
      · rfl
      · rw [he] at h; simp at h
    rw [lookupA_append_of_none _ hnone]
    exact lookupA_cons_self k v []

theorem lookupA_setKey_ne {k k' : Key} (hne : k' ≠ k) (m : ExpMap) (v : Value) :
    lookupA k' (setKey m k v) = lookupA k' m := by
  unfold setKey
  by_cases h : (lookupA k m).isSome
  · rw [if_pos h]
    exact lookupA_map_setEntry_ne hne m v
  · rw [if_neg h]
    cases he : lookupA k' m with
    | some v' => rw [lookupA_append_of_some _ he]
    | none =>
      rw [lookupA_append_of_none _ he, lookupA_cons_ne hne]
      rfl

theorem objAssign_cons (t : ExpMap) (k : Key) (v : Value) (rest : ExpMap) :
    objAssign t ((k, v) :: rest) = objAssign (setKey t k v) rest := rfl

theorem lookupA_objAssign_of_none {k : Key} {src : ExpMap} (t : ExpMap)
    (h : lookupA k src = none) : lookupA k (objAssign t src) = lookupA k t := by
  induction src generalizing t with
  | nil => rfl
  | cons kv rest ih =>
    obtain ⟨k1, v1⟩ := kv
    by_cases hk : k = k1
    · subst hk; rw [lookupA_cons_self] at h; exact Option.noConfusion h
    · rw [lookupA_cons_ne hk] at h
      rw [objAssign_cons, ih _ h, lookupA_setKey_ne hk]

theorem lookupA_objAssign_of_some {k : Key} {src : ExpMap} {v : Value} (t : ExpMap)
    (hnd : (src.map Prod.fst).Nodup) (h : lookupA k src = some v) :
    lookupA k (objAssign t src) = some v := by
  induction src generalizing t with
  | nil => exact Option.noConfusion h
  | cons kv rest ih =>
    obtain ⟨k1, v1⟩ := kv
    simp only [List.map_cons, List.nodup_cons] at hnd
    obtain ⟨hmem, hnd'⟩ := hnd
    by_cases hk : k = k1
    · subst hk
      rw [lookupA_cons_self] at h
      cases h
      rw [objAssign_cons, lookupA_objAssign_of_none _ (lookupA_eq_none hmem),
        lookupA_setKey_self]
    · rw [lookupA_cons_ne hk] at h
      rw [objAssign_cons, ih _ hnd' h]

/-! ### Key-membership helpers -/

theorem lookupA_isSome_of_mem {κ α : Type} [DecidableEq κ] {k : κ} {l : List (κ × α)}
    (h : k ∈ l.map Prod.fst) : (lookupA k l).isSome := by
  induction l with
  | nil => simp at h
  | cons kv t ih =>
    obtain ⟨k1, v1⟩ := kv
    by_cases hk : k = k1
    · subst hk; rw [lookupA_cons_self]; rfl
    · simp only [List.map_cons, List.mem_cons] at h
      rcases h with h | h
      · exact absurd h hk
      · rw [lookupA_cons_ne hk]; exact ih h

theorem not_mem_keys_of_lookupA_eq_none {κ α : Type} [DecidableEq κ] {k : κ}
    {l : List (κ × α)} (h : lookupA k l = none) : k ∉ l.map Prod.fst := by
  intro hmem
  have := lookupA_isSome_of_mem hmem
  rw [h] at this
  exact Bool.noConfusion this

/-! ### The reachable-state invariant

`Inv` collects the well-formedness facts that hold in every reachable state:
allocated references are below `nextRef`; distinct live objects have distinct
references; mocked modules are loaded; and the ghost pre-mock exports agree
with the live exports of unmocked modules and with the stored snapshot of
mocked ones. -/

structure StateInv (s : State) : Prop where
  expBound : ∀ rp m, lookupA rp s.requireCache = some m → m.exportsRef < s.nextRef
  snapBound : ∀ rp r, lookupA rp s.mockCache = some r → r < s.nextRef
  expDisjoint : ∀ rp rp' m m', rp ≠ rp' → lookupA rp s.requireCache = some m →
    lookupA rp' s.requireCache = some m' → m.exportsRef ≠ m'.exportsRef
  snapNotExp : ∀ rp rp' m r, lookupA rp s.requireCache = some m →
    lookupA rp' s.mockCache = some r → m.exportsRef ≠ r
  snapDisjoint : ∀ rp rp' r r', rp ≠ rp' → lookupA rp s.mockCache = some r →
    lookupA rp' s.mockCache = some r' → r ≠ r'
  mockKeysNodup : (s.mockCache.map Prod.fst).Nodup
  ghostLoaded : ∀ rp, lookupA rp s.requireCache = none → lookupA rp s.ghostPre = none
  mockLoaded : ∀ rp r, lookupA rp s.mockCache = some r →
    (lookupA rp s.requireCache).isSome
  unmockedEq : ∀ rp, lookupA rp s.mockCache = none → exportsMap s rp = ghostMap s rp
  snapEq : ∀ rp r, lookupA rp s.mockCache = some r → heapGet s.heap r = ghostMap s rp

/-- Intermediate state of `cacheMock` after the `??=` snapshot on a module
not yet registered: a fresh object holding a shallow copy of the current
exports is stored under the identifier. -/
def snapState (s : State) (resolvedPath : String) (cm : ModuleRecord) : State :=
  { s with
      heap := heapSet s.heap s.nextRef (heapGet s.heap cm.exportsRef)
      nextRef := s.nextRef + 1
      mockCache := (resolvedPath, s.nextRef) :: s.mockCache }

/-- Final state of `cacheMock`: `Object.assign(cachedModule.exports,
mockExports)` mutates the exports object in place. -/
def assignState (s : State) (cm : ModuleRecord) (mockExports : ExpMap) : State :=
  { s with
      heap := heapSet s.heap cm.exportsRef
        (objAssign (heapGet s.heap cm.exportsRef) mockExports) }

/-- State after inserting a brand-new module record with a fresh exports
object holding `em` (shared shape of `realLoad` and the preloader's insert;
`ls` is the resulting `loads` ghost). -/
def insertFresh (s : State) (resolvedPath : String) (em : ExpMap) (ls : List String) :
    State :=
  { s with
      heap := heapSet s.heap s.nextRef em
      nextRef := s.nextRef + 1
      requireCache := (resolvedPath, ⟨s.nextRef, true⟩) :: s.requireCache
      ghostPre := (resolvedPath, em) :: s.ghostPre
      loads := ls }

theorem realLoad_eq (env : Env) (s : State) (rp : String) :
    realLoad env s rp =
      (insertFresh s rp (env.loadExports rp) (rp :: s.loads), ⟨s.nextRef, true⟩) := rfl

theorem cacheMock_ok_mocked {env : Env} {s : State} {p rp : String} {cm : ModuleRecord}
    {snap : Ref} (me : ExpMap) (hres : env.resolve p = some rp)
    (h1 : lookupA rp s.requireCache = some cm) (h2 : lookupA rp s.mockCache = some snap) :
    cacheMock env s p me = Except.ok (assignState s cm me) := by
  simp [cacheMock, hres, h1, h2, assignState]

theorem cacheMock_ok_fresh {env : Env} {s : State} {p rp : String} {cm : ModuleRecord}
    (me : ExpMap) (hres : env.resolve p = some rp)
    (h1 : lookupA rp s.requireCache = some cm) (h2 : lookupA rp s.mockCache = none) :
    cacheMock env s p me = Except.ok (assignState (snapState s rp cm) cm me) := by
  simp [cacheMock, hres, h1, h2, assignState, snapState]

theorem cacheMock_ok_load {env : Env} {s : State} {p rp : String}
    (me : ExpMap) (hres : env.resolve p = some rp)
    (h1 : lookupA rp s.requireCache = none) (h2 : lookupA rp s.mockCache = none) :
    cacheMock env s p me =
      Except.ok (assignState
        (snapState (insertFresh s rp (env.loadExports rp) (rp :: s.loads)) rp
          ⟨s.nextRef, true⟩)
        ⟨s.nextRef, true⟩ me) := by
  simp [cacheMock, hres, h1, h2, realLoad_eq, assignState, snapState, insertFresh]

theorem cacheMock_err {env : Env} {s : State} {p : String} (me : ExpMap)
    (hres : env.resolve p = none) :
    cacheMock env s p me = Except.error (ResolutionError.cannotResolve p) := by
  simp [cacheMock, hres]

theorem restore_some_ok {env : Env} {s : State} {p rp : String}
    (hne : ¬(p = "")) (hres : env.resolve p = some rp) :
    cacheMock.restore env s (some p) = Except.ok (cacheMock.restoreOne s rp) := by
  simp [cacheMock.restore, truthy, hne, hres]

theorem restore_some_err {env : Env} {s : State} {p : String}
    (hne : ¬(p = "")) (hres : env.resolve p = none) :
    cacheMock.restore env s (some p) =
      Except.error (ResolutionError.cannotResolve p) := by
  simp [cacheMock.restore, truthy, hne, hres]

theorem restore_falsy {env : Env} {s : State} {path : Option String}
    (h : truthy path = false) :
    cacheMock.restore env s path =
      Except.ok ((s.mockCache.map Prod.fst).foldl cacheMock.restoreOne s) := by
  cases path with
  | none => rfl
  | some p => simp [cacheMock.restore, h]

theorem require_ok_hit {env : Env} {s : State} {p rp : String} {m : ModuleRecord}
    (e : ExpMap) (hres : env.resolve p = some rp)
    (h1 : lookupA rp s.requireCache = some m) :
    cacheMock.require env s p e = Except.ok (s, none) := by
  simp [cacheMock.require, hres, h1]

theorem require_ok_miss {env : Env} {s : State} {p rp : String}
    (e : ExpMap) (hres : env.resolve p = some rp)
    (h1 : lookupA rp s.requireCache = none) :
    cacheMock.require env s p e = Except.ok (insertFresh s rp e s.loads, none) := by
  simp [cacheMock.require, hres, h1, insertFresh]

theorem require_err {env : Env} {s : State} {p : String} (e : ExpMap)
    (hres : env.resolve p = none) :
    cacheMock.require env s p e =
      Except.error (ResolutionError.cannotResolve p) := by
  simp [cacheMock.require, hres]

theorem exportsMap_eq_of_lookup {s : State} {rp : String} {m : ModuleRecord}
    (h : lookupA rp s.requireCache = some m) :
    exportsMap s rp = heapGet s.heap m.exportsRef := by
  simp [exportsMap, h]

theorem exportsMap_eq_nil {s : State} {rp : String}
    (h : lookupA rp s.requireCache = none) : exportsMap s rp = [] := by
  simp [exportsMap, h]

theorem ghostMap_eq_of_lookup {s : State} {rp : String} {g : ExpMap}
    (h : lookupA rp s.ghostPre = some g) : ghostMap s rp = g := by
  simp [ghostMap, h]

theorem ghostMap_eq_nil {s : State} {rp : String}
    (h : lookupA rp s.ghostPre = none) : ghostMap s rp = [] := by
  simp [ghostMap, h]

/-- Inserting a fresh, unmocked module record (by a real load or by the
preloader) preserves the invariant. -/
theorem inv_insertFresh {s : State} {rp : String} (em : ExpMap) (ls : List String)
    (hInv : StateInv s) (h1 : lookupA rp s.requireCache = none) :
    StateInv (insertFresh s rp em ls) := by
  obtain ⟨eB, sB, eD, sNE, sD, nd, gL, mL, uE, sE⟩ := hInv
  have hrpUnmocked : lookupA rp s.mockCache = none := by
    cases hm : lookupA rp s.mockCache with
    | none => rfl
    | some r =>
      have := mL rp r hm
      rw [h1] at this
      exact Bool.noConfusion this
  constructor
  · -- expBound
    intro rp' m' h
    by_cases he : rp' = rp
    · subst he
      rw [show (insertFresh s rp' em ls).requireCache =
            (rp', (⟨s.nextRef, true⟩ : ModuleRecord)) :: s.requireCache from rfl,
        lookupA_cons_self] at h
      cases h
      exact Nat.lt_succ_self s.nextRef
    · rw [show (insertFresh s rp em ls).requireCache =
            (rp, (⟨s.nextRef, true⟩ : ModuleRecord)) :: s.requireCache from rfl,
        lookupA_cons_ne he] at h
      exact Nat.lt_succ_of_lt (eB rp' m' h)
  · -- snapBound
    intro rp' r h
    exact Nat.lt_succ_of_lt (sB rp' r h)
  · -- expDisjoint
    intro rp1 rp2 m1 m2 hne h1' h2'
    rw [show (insertFresh s rp em ls).requireCache =
          (rp, (⟨s.nextRef, true⟩ : ModuleRecord)) :: s.requireCache from rfl] at h1' h2'
    by_cases he1 : rp1 = rp
    · subst he1
      rw [lookupA_cons_self] at h1'
      cases h1'
      have he2 : rp2 ≠ rp1 := fun h => hne h.symm
      rw [lookupA_cons_ne he2] at h2'
      exact (ne_of_gt (eB rp2 m2 h2'))
    · rw [lookupA_cons_ne he1] at h1'
      by_cases he2 : rp2 = rp
      · subst he2
        rw [lookupA_cons_self] at h2'
        cases h2'
        exact (ne_of_lt (eB rp1 m1 h1'))
      · rw [lookupA_cons_ne he2] at h2'
        exact eD rp1 rp2 m1 m2 hne h1' h2'
  · -- snapNotExp
    intro rp1 rp2 m r h1' h2'
    rw [show (insertFresh s rp em ls).requireCache =
          (rp, (⟨s.nextRef, true⟩ : ModuleRecord)) :: s.requireCache from rfl] at h1'
    by_cases he1 : rp1 = rp
    · subst he1
      rw [lookupA_cons_self] at h1'
      cases h1'
      exact (ne_of_gt (sB rp2 r h2'))
    · rw [lookupA_cons_ne he1] at h1'
      exact sNE rp1 rp2 m r h1' h2'
  · -- snapDisjoint
    exact sD
  · -- mockKeysNodup
    exact nd
  · -- ghostLoaded
    intro rp' h
    rw [show (insertFresh s rp em ls).requireCache =
          (rp, (⟨s.nextRef, true⟩ : ModuleRecord)) :: s.requireCache from rfl] at h
    by_cases he : rp' = rp
    · subst he
      rw [lookupA_cons_self] at h
      exact Option.noConfusion h
    · rw [lookupA_cons_ne he] at h
      rw [show (insertFresh s rp em ls).ghostPre = (rp, em) :: s.ghostPre from rfl,
        lookupA_cons_ne he]
      exact gL rp' h
  · -- mockLoaded
    intro rp' r h
    rw [show (insertFresh s rp em ls).requireCache =
          (rp, (⟨s.nextRef, true⟩ : ModuleRecord)) :: s.requireCache from rfl]
    by_cases he : rp' = rp
    · subst he
      rw [lookupA_cons_self]
      rfl
    · rw [lookupA_cons_ne he]
      exact mL rp' r h
  · -- unmockedEq
    intro rp' h
    by_cases he : rp' = rp
    · subst he
      simp [insertFresh, exportsMap, ghostMap, lookupA_cons_self, heapGet_heapSet_self]
    · have hmock : lookupA rp' s.mockCache = none := h
      have hghost : ghostMap (insertFresh s rp em ls) rp' = ghostMap s rp' := by
        unfold ghostMap
        rw [show (insertFresh s rp em ls).ghostPre = (rp, em) :: s.ghostPre from rfl,
          lookupA_cons_ne he]
      rw [hghost]
      cases hr : lookupA rp' s.requireCache with
      | none =>
        have : exportsMap (insertFresh s rp em ls) rp' = [] :=
          exportsMap_eq_nil (by
            rw [show (insertFresh s rp em ls).requireCache =
                  (rp, (⟨s.nextRef, true⟩ : ModuleRecord)) :: s.requireCache from rfl,
              lookupA_cons_ne he, hr])
        rw [this, ← exportsMap_eq_nil hr]
        exact uE rp' hmock
      | some m =>
        have hb : m.exportsRef ≠ s.nextRef := ne_of_lt (eB rp' m hr)
        have : exportsMap (insertFresh s rp em ls) rp' =
            heapGet (heapSet s.heap s.nextRef em) m.exportsRef :=
          exportsMap_eq_of_lookup (by
            rw [show (insertFresh s rp em ls).requireCache =
                  (rp, (⟨s.nextRef, true⟩ : ModuleRecord)) :: s.requireCache from rfl,
              lookupA_cons_ne he, hr])
        rw [this, heapGet_heapSet_ne _ _ hb, ← exportsMap_eq_of_lookup hr]
        exact uE rp' hmock
  · -- snapEq
    intro rp' r h
    have h' : lookupA rp' s.mockCache = some r := h
    have hb : r ≠ s.nextRef := ne_of_lt (sB rp' r h')
    have he : rp' ≠ rp := by
      intro hcontra
      subst hcontra
      rw [hrpUnmocked] at h'
      exact Option.noConfusion h'
    have hghost : ghostMap (insertFresh s rp em ls) rp' = ghostMap s rp' := by
      unfold ghostMap
      rw [show (insertFresh s rp em ls).ghostPre = (rp, em) :: s.ghostPre from rfl,
        lookupA_cons_ne he]
    rw [show (insertFresh s rp em ls).heap = heapSet s.heap s.nextRef em from rfl,
      heapGet_heapSet_ne _ _ hb, hghost]
    exact sE rp' r h

/-- Taking the first-mock snapshot of a loaded, not-yet-registered module
preserves the invariant. -/
theorem inv_snapState {s : State} {rp : String} {cm : ModuleRecord}
    (hInv : StateInv s) (hcm : lookupA rp s.requireCache = some cm)
    (hum : lookupA rp s.mockCache = none) :
    StateInv (snapState s rp cm) := by
  obtain ⟨eB, sB, eD, sNE, sD, nd, gL, mL, uE, sE⟩ := hInv
  have hmc : (snapState s rp cm).mockCache = (rp, s.nextRef) :: s.mockCache := rfl
  have hheap : (snapState s rp cm).heap =
      heapSet s.heap s.nextRef (heapGet s.heap cm.exportsRef) := rfl
  constructor
  · -- expBound
    intro rp' m' h
    exact Nat.lt_succ_of_lt (eB rp' m' h)
  · -- snapBound
    intro rp' r h
    rw [hmc] at h
    by_cases he : rp' = rp
    · subst he
      rw [lookupA_cons_self] at h
      cases h
      exact Nat.lt_succ_self s.nextRef
    · rw [lookupA_cons_ne he] at h
      exact Nat.lt_succ_of_lt (sB rp' r h)
  · -- expDisjoint
    exact eD
  · -- snapNotExp
    intro rp1 rp2 m r h1 h2
    rw [hmc] at h2
    by_cases he : rp2 = rp
    · subst he
      rw [lookupA_cons_self] at h2
      cases h2
      exact ne_of_lt (eB rp1 m h1)
    · rw [lookupA_cons_ne he] at h2
      exact sNE rp1 rp2 m r h1 h2
  · -- snapDisjoint
    intro rp1 rp2 r1 r2 hne h1 h2
    rw [hmc] at h1 h2
    by_cases he1 : rp1 = rp
    · subst he1
      rw [lookupA_cons_self] at h1
      cases h1
      have he2 : rp2 ≠ rp1 := fun h => hne h.symm
      rw [lookupA_cons_ne he2] at h2
      exact ne_of_gt (sB rp2 r2 h2)
    · rw [lookupA_cons_ne he1] at h1
      by_cases he2 : rp2 = rp
      · subst he2
        rw [lookupA_cons_self] at h2
        cases h2
        exact ne_of_lt (sB rp1 r1 h1)
      · rw [lookupA_cons_ne he2] at h2
        exact sD rp1 rp2 r1 r2 hne h1 h2
  · -- mockKeysNodup
    rw [hmc]
    simp only [List.map_cons, List.nodup_cons]
    exact ⟨not_mem_keys_of_lookupA_eq_none hum, nd⟩
  · -- ghostLoaded
    exact gL
  · -- mockLoaded
    intro rp' r h
    rw [hmc] at h
    by_cases he : rp' = rp
    · subst he
      show (lookupA rp' s.requireCache).isSome = true
      rw [hcm]
      rfl
    · rw [lookupA_cons_ne he] at h
      exact mL rp' r h
  · -- unmockedEq
    intro rp' h
    rw [hmc] at h
    by_cases he : rp' = rp
    · subst he
      rw [lookupA_cons_self] at h
      exact Option.noConfusion h
    · rw [lookupA_cons_ne he] at h
      have hghost : ghostMap (snapState s rp cm) rp' = ghostMap s rp' := rfl
      rw [hghost]
      cases hr : lookupA rp' s.requireCache with
      | none =>
        rw [exportsMap_eq_nil (show lookupA rp' (snapState s rp cm).requireCache = none from hr),
          ← exportsMap_eq_nil hr]
        exact uE rp' h
      | some m' =>
        have hb : m'.exportsRef ≠ s.nextRef := ne_of_lt (eB rp' m' hr)
        rw [exportsMap_eq_of_lookup
            (show lookupA rp' (snapState s rp cm).requireCache = some m' from hr),
          hheap, heapGet_heapSet_ne _ _ hb, ← exportsMap_eq_of_lookup hr]
        exact uE rp' h
  · -- snapEq
    intro rp' r h
    rw [hmc] at h
    have hghost : ghostMap (snapState s rp cm) rp' = ghostMap s rp' := rfl
    by_cases he : rp' = rp
    · subst he
      rw [lookupA_cons_self] at h
      cases h
      rw [hheap, heapGet_heapSet_self, hghost, ← exportsMap_eq_of_lookup hcm]
      exact uE rp' hum
    · rw [lookupA_cons_ne he] at h
      have hb : r ≠ s.nextRef := ne_of_lt (sB rp' r h)
      rw [hheap, heapGet_heapSet_ne _ _ hb, hghost]
      exact sE rp' r h

/-- The in-place `Object.assign` into the exports of a loaded, registered
module preserves the invariant. -/
theorem inv_assign {s : State} {rp : String} {cm : ModuleRecord} (me : ExpMap)
    (hInv : StateInv s) (hcm : lookupA rp s.requireCache = some cm)
    (hm : (lookupA rp s.mockCache).isSome) :
    StateInv (assignState s cm me) := by
  obtain ⟨eB, sB, eD, sNE, sD, nd, gL, mL, uE, sE⟩ := hInv
  have hheap : (assignState s cm me).heap =
      heapSet s.heap cm.exportsRef
        (objAssign (heapGet s.heap cm.exportsRef) me) := rfl
  constructor
  · exact eB
  · exact sB
  · exact eD
  · exact sNE
  · exact sD
  · exact nd
  · exact gL
  · exact mL
  · -- unmockedEq
    intro rp' h
    have h' : lookupA rp' s.mockCache = none := h
    have he : rp' ≠ rp := by
      intro hcontra
      subst hcontra
      rw [h'] at hm
      exact Bool.noConfusion hm
    have hghost : ghostMap (assignState s cm me) rp' = ghostMap s rp' := rfl
    rw [hghost]
    cases hr : lookupA rp' s.requireCache with
    | none =>
      rw [exportsMap_eq_nil (show lookupA rp' (assignState s cm me).requireCache = none from hr),
        ← exportsMap_eq_nil hr]
      exact uE rp' h'
    | some m' =>
      have hb : m'.exportsRef ≠ cm.exportsRef := eD rp' rp m' cm he hr hcm
      rw [exportsMap_eq_of_lookup
          (show lookupA rp' (assignState s cm me).requireCache = some m' from hr),
        hheap, heapGet_heapSet_ne _ _ hb, ← exportsMap_eq_of_lookup hr]
      exact uE rp' h'
  · -- snapEq
    intro rp' r h
    have h' : lookupA rp' s.mockCache = some r := h
    have hb : r ≠ cm.exportsRef := (sNE rp rp' cm r hcm h').symm
    have hghost : ghostMap (assignState s cm me) rp' = ghostMap s rp' := rfl
    rw [hheap, heapGet_heapSet_ne _ _ hb, hghost]
    exact sE rp' r h'

/-- The state produced by `restoreOne` when both the module record and the
stored original are present: the record's exports reference becomes the
snapshot reference and the registry entry is deleted.  The heap is untouched. -/
def restoreSet (s : State) (resolvedPath : String) (cm : ModuleRecord) (orig : Ref) :
    State :=
  { s with
      requireCache :=
        setA resolvedPath { cm with exportsRef := orig } s.requireCache
      mockCache := eraseA resolvedPath s.mockCache }

theorem restoreOne_eq_set {s : State} {rp : String} {cm : ModuleRecord} {orig : Ref}
    (h1 : lookupA rp s.requireCache = some cm)
    (h2 : lookupA rp s.mockCache = some orig) :
    cacheMock.restoreOne s rp = restoreSet s rp cm orig := by
  unfold cacheMock.restoreOne
  rw [h1, h2]
  rfl

theorem restoreOne_eq_self_noRecord {s : State} {rp : String}
    (h1 : lookupA rp s.requireCache = none) :
    cacheMock.restoreOne s rp = s := by
  unfold cacheMock.restoreOne
  rw [h1]

theorem restoreOne_eq_self_noEntry {s : State} {rp : String} {cm : ModuleRecord}
    (h1 : lookupA rp s.requireCache = some cm)
    (h2 : lookupA rp s.mockCache = none) :
    cacheMock.restoreOne s rp = s := by
  unfold cacheMock.restoreOne
  rw [h1, h2]

/-- Restoring one present entry preserves the invariant. -/
theorem inv_restoreSet {s : State} {rp : String} {cm : ModuleRecord} {orig : Ref}
    (hInv : StateInv s) (hcm : lookupA rp s.requireCache = some cm)
    (hmc : lookupA rp s.mockCache = some orig) :
    StateInv (restoreSet s rp cm orig) := by
  obtain ⟨eB, sB, eD, sNE, sD, nd, gL, mL, uE, sE⟩ := hInv
  have hsomeR : (lookupA rp s.requireCache).isSome := by rw [hcm]; rfl
  have hrc : (restoreSet s rp cm orig).requireCache =
      setA rp { cm with exportsRef := orig } s.requireCache := rfl
  have hmcq : (restoreSet s rp cm orig).mockCache = eraseA rp s.mockCache := rfl
  have hhp : (restoreSet s rp cm orig).heap = s.heap := rfl
  have hgp : (restoreSet s rp cm orig).ghostPre = s.ghostPre := rfl
  constructor
  · -- expBound
    intro rp' m' h
    rw [hrc] at h
    by_cases he : rp' = rp
    · subst he
      rw [lookupA_setA_self _ hsomeR] at h
      cases h
      exact sB rp' orig hmc
    · rw [lookupA_setA_ne he _ _] at h
      exact eB rp' m' h
  · -- snapBound
    intro rp' r h
    rw [hmcq] at h
    by_cases he : rp' = rp
    · subst he
      rw [lookupA_eraseA_self nd] at h
      exact Option.noConfusion h
    · rw [lookupA_eraseA_ne he _] at h
      exact sB rp' r h
  · -- expDisjoint
    intro rp1 rp2 m1 m2 hne h1 h2
    rw [hrc] at h1 h2
    by_cases he1 : rp1 = rp
    · subst he1
      rw [lookupA_setA_self _ hsomeR] at h1
      cases h1
      have he2 : rp2 ≠ rp1 := fun h => hne h.symm
      rw [lookupA_setA_ne he2 _ _] at h2
      exact (sNE rp2 rp1 m2 orig h2 hmc).symm
    · rw [lookupA_setA_ne he1 _ _] at h1
      by_cases he2 : rp2 = rp
      · subst he2
        rw [lookupA_setA_self _ hsomeR] at h2
        cases h2
        exact sNE rp1 rp2 m1 orig h1 hmc
      · rw [lookupA_setA_ne he2 _ _] at h2
        exact eD rp1 rp2 m1 m2 hne h1 h2
  · -- snapNotExp
    intro rp1 rp2 m r h1 h2
    rw [hrc] at h1
    rw [hmcq] at h2
    have he2 : rp2 ≠ rp := by
      intro hcontra
      subst hcontra
      rw [lookupA_eraseA_self nd] at h2
      exact Option.noConfusion h2
    rw [lookupA_eraseA_ne he2 _] at h2
    by_cases he1 : rp1 = rp
    · subst he1
      rw [lookupA_setA_self _ hsomeR] at h1
      cases h1
      exact sD rp1 rp2 orig r (fun h => he2 h.symm) hmc h2
    · rw [lookupA_setA_ne he1 _ _] at h1
      exact sNE rp1 rp2 m r h1 h2
  · -- snapDisjoint
    intro rp1 rp2 r1 r2 hne h1 h2
    rw [hmcq] at h1 h2
    have he1 : rp1 ≠ rp := by
      intro hcontra
      subst hcontra
      rw [lookupA_eraseA_self nd] at h1
      exact Option.noConfusion h1
    have he2 : rp2 ≠ rp := by
      intro hcontra
      subst hcontra
      rw [lookupA_eraseA_self nd] at h2
      exact Option.noConfusion h2
    rw [lookupA_eraseA_ne he1 _] at h1
    rw [lookupA_eraseA_ne he2 _] at h2
    exact sD rp1 rp2 r1 r2 hne h1 h2
  · -- mockKeysNodup
    rw [hmcq]
    exact nd.sublist (eraseA_keys_sublist rp s.mockCache)
  · -- ghostLoaded
    intro rp' h
    rw [hrc] at h
    rw [hgp]
    by_cases he : rp' = rp
    · subst he
      rw [lookupA_setA_self _ hsomeR] at h
      exact Option.noConfusion h
    · rw [lookupA_setA_ne he _ _] at h
      exact gL rp' h
  · -- mockLoaded
    intro rp' r h
    rw [hmcq] at h
    have he : rp' ≠ rp := by
      intro hcontra
      subst hcontra
      rw [lookupA_eraseA_self nd] at h
      exact Option.noConfusion h
    rw [lookupA_eraseA_ne he _] at h
    rw [hrc, lookupA_setA_ne he _ _]
    exact mL rp' r h
  · -- unmockedEq
    intro rp' h
    rw [hmcq] at h
    by_cases he : rp' = rp
    · subst he
      rw [exportsMap_eq_of_lookup (show lookupA rp'
          (restoreSet s rp' cm orig).requireCache = some { cm with exportsRef := orig } by
            rw [hrc]; exact lookupA_setA_self _ hsomeR), hhp]
      exact sE rp' orig hmc
    · rw [lookupA_eraseA_ne he _] at h
      have hghost : ghostMap (restoreSet s rp cm orig) rp' = ghostMap s rp' := rfl
      rw [hghost]
      cases hr : lookupA rp' s.requireCache with
      | none =>
        rw [exportsMap_eq_nil (show lookupA rp'
            (restoreSet s rp cm orig).requireCache = none by
              rw [hrc, lookupA_setA_ne he _ _]; exact hr)]
        rw [← exportsMap_eq_nil hr]
        exact uE rp' h
      | some m' =>
        rw [exportsMap_eq_of_lookup (show lookupA rp'
            (restoreSet s rp cm orig).requireCache = some m' by
              rw [hrc, lookupA_setA_ne he _ _]; exact hr), hhp]
        rw [← exportsMap_eq_of_lookup hr]
        exact uE rp' h
  · -- snapEq
    intro rp' r h
    rw [hmcq] at h
    have he : rp' ≠ rp := by
      intro hcontra
      subst hcontra
      rw [lookupA_eraseA_self nd] at h
      exact Option.noConfusion h
    rw [lookupA_eraseA_ne he _] at h
    have hghost : ghostMap (restoreSet s rp cm orig) rp' = ghostMap s rp' := rfl
    rw [hhp, hghost]
    exact sE rp' r h

/-- Restoring one identifier preserves the invariant (including the skip
cases). -/
theorem inv_restoreOne {s : State} (rp : String) (hInv : StateInv s) :
    StateInv (cacheMock.restoreOne s rp) := by
  cases hcm : lookupA rp s.requireCache with
  | none =>
    rw [restoreOne_eq_self_noRecord hcm]
    exact hInv
  | some cm =>
    cases hmc : lookupA rp s.mockCache with
    | none =>
      rw [restoreOne_eq_self_noEntry hcm hmc]
      exact hInv
    | some orig =>
      rw [restoreOne_eq_set hcm hmc]
      exact inv_restoreSet hInv hcm hmc

/-- Folding `restoreOne` over any key list preserves the invariant. -/
theorem inv_foldl_restoreOne {s : State} (l : List String) (hInv : StateInv s) :
    StateInv (l.foldl cacheMock.restoreOne s) := by
  induction l generalizing s with
  | nil => exact hInv
  | cons k t ih => exact ih (inv_restoreOne k hInv)

/-- A successful `cacheMock` call preserves the invariant. -/
theorem inv_mock {env : Env} {s s' : State} {p : String} {me : ExpMap}
    (hInv : StateInv s) (heq : cacheMock env s p me = Except.ok s') :
    StateInv s' := by
  cases hres : env.resolve p with
  | none =>
    rw [cacheMock_err me hres] at heq
    exact Except.noConfusion heq
  | some rp =>
    cases h1 : lookupA rp s.requireCache with
    | some cm =>
      cases h2 : lookupA rp s.mockCache with
      | some snap =>
        rw [cacheMock_ok_mocked me hres h1 h2] at heq
        cases heq
        exact inv_assign me hInv h1 (by rw [h2]; rfl)
      | none =>
        rw [cacheMock_ok_fresh me hres h1 h2] at heq
        cases heq
        have hsnap := inv_snapState hInv h1 h2
        exact inv_assign me hsnap
          (show lookupA rp (snapState s rp cm).requireCache = some cm from h1)
          (by
            show (lookupA rp ((rp, s.nextRef) :: s.mockCache)).isSome = true
            rw [lookupA_cons_self]
            rfl)
    | none =>
      have h2 : lookupA rp s.mockCache = none := by
        cases h2' : lookupA rp s.mockCache with
        | none => rfl
        | some r =>
          have := hInv.mockLoaded rp r h2'
          rw [h1] at this
          exact Bool.noConfusion this
      rw [cacheMock_ok_load me hres h1 h2] at heq
      cases heq
      have hins := inv_insertFresh (env.loadExports rp) (rp :: s.loads) hInv h1
      have hlook : lookupA rp
          (insertFresh s rp (env.loadExports rp) (rp :: s.loads)).requireCache =
          some ⟨s.nextRef, true⟩ := lookupA_cons_self _ _ _
      have hum : lookupA rp
          (insertFresh s rp (env.loadExports rp) (rp :: s.loads)).mockCache = none := h2
      have hsnap := inv_snapState hins hlook hum
      exact inv_assign me hsnap
        (show lookupA rp (snapState
            (insertFresh s rp (env.loadExports rp) (rp :: s.loads)) rp
            ⟨s.nextRef, true⟩).requireCache = some ⟨s.nextRef, true⟩ from hlook)
        (by
          show (lookupA rp ((rp,
            (insertFresh s rp (env.loadExports rp) (rp :: s.loads)).nextRef) ::
            s.mockCache)).isSome = true
          rw [lookupA_cons_self]
          rfl)

/-- A successful `restore` call preserves the invariant. -/
theorem inv_restore {env : Env} {s s' : State} {path : Option String}
    (hInv : StateInv s) (heq : cacheMock.restore env s path = Except.ok s') :
    StateInv s' := by
  cases ht : truthy path with
  | false =>
    rw [restore_falsy ht] at heq
    cases heq
    exact inv_foldl_restoreOne _ hInv
  | true =>
    cases path with
    | none => simp [truthy] at ht
    | some p =>
      have hne : ¬(p = "") := by
        intro hcontra
        subst hcontra
        simp [truthy] at ht
      cases hres : env.resolve p with
      | none =>
        rw [restore_some_err hne hres] at heq
        exact Except.noConfusion heq
      | some rp =>
        rw [restore_some_ok hne hres] at heq
        cases heq
        exact inv_restoreOne rp hInv

/-- A successful preload call preserves the invariant. -/
theorem inv_preload {env : Env} {s s' : State} {p : String} {e : ExpMap}
    {ret : Option ModuleRecord} (hInv : StateInv s)
    (heq : cacheMock.require env s p e = Except.ok (s', ret)) :
    StateInv s' := by
  cases hres : env.resolve p with
  | none =>
    rw [require_err e hres] at heq
    exact Except.noConfusion heq
  | some rp =>
    cases h1 : lookupA rp s.requireCache with
    | some m =>
      rw [require_ok_hit e hres h1] at heq
      cases heq
      exact hInv
    | none =>
      rw [require_ok_miss e hres h1] at heq
      cases heq
      exact inv_insertFresh e s.loads hInv h1

/-- The invariant holds at process start. -/
theorem inv_init : StateInv initState := by
  constructor
  · intro rp m h; exact Option.noConfusion h
  · intro rp r h; exact Option.noConfusion h
  · intro rp rp' m m' hne h1 h2; exact Option.noConfusion h1
  · intro rp rp' m r h1 h2; exact Option.noConfusion h1
  · intro rp rp' r r' hne h1 h2; exact Option.noConfusion h1
  · exact List.nodup_nil
  · intro rp h; rfl
  · intro rp r h; exact Option.noConfusion h
  · intro rp h; rfl
  · intro rp r h; exact Option.noConfusion h

/-- Every reachable state satisfies the invariant. -/
theorem reachable_inv {env : Env} {s : State} (h : Reachable env s) : StateInv s := by
  induction h with
  | init => exact inv_init
  | step hs hstep ih =>
    cases hstep with
    | extLoad hnone =>
      rw [realLoad_eq]
      exact inv_insertFresh _ _ ih hnone
    | mockOp heq => exact inv_mock ih heq
    | restoreOp heq => exact inv_restore ih heq
    | preloadOp heq => exact inv_preload ih heq

/-- Characterization of the bulk-restore loop: folding `restoreOne` over the
registry's key list (each key having a module record) empties the registry,
leaves the heap and ghost state untouched, and points every previously
registered module's exports reference at its stored snapshot. -/
theorem foldl_restoreOne_spec (l : List (String × Ref)) :
    ∀ (s : State), s.mockCache = l →
    (∀ rp r, lookupA rp l = some r → (lookupA rp s.requireCache).isSome = true) →
    (l.map Prod.fst).Nodup →
    ((l.map Prod.fst).foldl cacheMock.restoreOne s).mockCache = [] ∧
    ((l.map Prod.fst).foldl cacheMock.restoreOne s).heap = s.heap ∧
    ((l.map Prod.fst).foldl cacheMock.restoreOne s).ghostPre = s.ghostPre ∧
    (∀ rp r, lookupA rp l = some r →
      ∃ m, lookupA rp ((l.map Prod.fst).foldl cacheMock.restoreOne s).requireCache
          = some m ∧ m.exportsRef = r) ∧
    (∀ rp, lookupA rp l = none →
      lookupA rp ((l.map Prod.fst).foldl cacheMock.restoreOne s).requireCache
        = lookupA rp s.requireCache) := by
  induction l with
  | nil =>
    intro s hl hload hnd
    refine ⟨hl, rfl, rfl, ?_, ?_⟩
    · intro rp r h
      exact Option.noConfusion h
    · intro rp h
      rfl
  | cons kr rest ih =>
    intro s hl hload hnd
    obtain ⟨k, r0⟩ := kr
    simp only [List.map_cons, List.nodup_cons] at hnd
    obtain ⟨hkmem, hnd'⟩ := hnd
    have hk0 : lookupA k s.mockCache = some r0 := by
      rw [hl]
      exact lookupA_cons_self k r0 rest
    have hksome := hload k r0 (lookupA_cons_self k r0 rest)
    cases hcm : lookupA k s.requireCache with
    | none => rw [hcm] at hksome; exact Bool.noConfusion hksome
    | some cm =>
      have hstep : cacheMock.restoreOne s k = restoreSet s k cm r0 :=
        restoreOne_eq_set hcm hk0
      have hfold : ((((k, r0) :: rest).map Prod.fst).foldl cacheMock.restoreOne s) =
          ((rest.map Prod.fst).foldl cacheMock.restoreOne (restoreSet s k cm r0)) := by
        simp only [List.map_cons, List.foldl_cons, hstep]
      have hmc1 : (restoreSet s k cm r0).mockCache = rest := by
        show eraseA k s.mockCache = rest
        rw [hl]
        exact eraseA_cons_self k r0 rest
      have hload1 : ∀ rp r, lookupA rp rest = some r →
          (lookupA rp (restoreSet s k cm r0).requireCache).isSome = true := by
        intro rp r h
        have hne : rp ≠ k := by
          intro hcontra
          subst hcontra
          exact hkmem (mem_keys_of_lookupA h)
        show (lookupA rp (setA k { cm with exportsRef := r0 } s.requireCache)).isSome = true
        rw [lookupA_setA_ne hne _ _]
        exact hload rp r (by rw [lookupA_cons_ne hne]; exact h)
      obtain ⟨ih1, ih2, ih3, ih4, ih5⟩ := ih (restoreSet s k cm r0) hmc1 hload1 hnd'
      refine ⟨?_, ?_, ?_, ?_, ?_⟩
      · rw [hfold]; exact ih1
      · rw [hfold, ih2]; rfl
      · rw [hfold, ih3]; rfl
      · intro rp r h
        rw [hfold]
        by_cases hne : rp = k
        · subst hne
          rw [lookupA_cons_self] at h
          injection h with h
          subst h
          rw [ih5 rp (lookupA_eq_none hkmem)]
          refine ⟨{ cm with exportsRef := r0 }, ?_, rfl⟩
          show lookupA rp (setA rp { cm with exportsRef := r0 } s.requireCache) =
            some { cm with exportsRef := r0 }
          exact lookupA_setA_self _ (by rw [hcm]; rfl)
        · rw [lookupA_cons_ne hne] at h
          exact ih4 rp r h
      · intro rp h
        have hne : rp ≠ k := by
          intro hcontra
          subst hcontra
          rw [lookupA_cons_self] at h
          exact Option.noConfusion h
        rw [lookupA_cons_ne hne] at h
        rw [hfold, ih5 rp h]
        show lookupA rp (setA k { cm with exportsRef := r0 } s.requireCache) =
          lookupA rp s.requireCache
        exact lookupA_setA_ne hne _ _

/-- Effect of a first mock on a loaded, unregistered module: the record is
untouched, the registry now maps the identifier to a fresh snapshot object,
and that snapshot holds the exports as they were before the mock. -/
theorem mock_fresh_facts {env : Env} {s s1 : State} {id rp : String}
    {cm : ModuleRecord} (ov : ExpMap)
    (hbound : cm.exportsRef < s.nextRef)
    (hres : env.resolve id = some rp)
    (hcm : lookupA rp s.requireCache = some cm)
    (hno : lookupA rp s.mockCache = none)
    (hm : cacheMock env s id ov = Except.ok s1) :
    lookupA rp s1.requireCache = some cm ∧
    lookupA rp s1.mockCache = some s.nextRef ∧
    heapGet s1.heap s.nextRef = heapGet s.heap cm.exportsRef := by
  rw [cacheMock_ok_fresh ov hres hcm hno] at hm
  cases hm
  refine ⟨hcm, ?_, ?_⟩
  · show lookupA rp ((rp, s.nextRef) :: s.mockCache) = some s.nextRef
    exact lookupA_cons_self rp s.nextRef s.mockCache
  · show heapGet (heapSet (heapSet s.heap s.nextRef (heapGet s.heap cm.exportsRef))
      cm.exportsRef
      (objAssign (heapGet (heapSet s.heap s.nextRef (heapGet s.heap cm.exportsRef))
        cm.exportsRef) ov)) s.nextRef = heapGet s.heap cm.exportsRef
    rw [heapGet_heapSet_ne _ _ (ne_of_gt hbound), heapGet_heapSet_self]

/-- Effect of a successful `restore` of a loaded, registered identifier: the
result is exactly `restoreSet`, whose live exports are the snapshot's
contents. -/
theorem restore_exports {env : Env} {t t' : State} {id rp : String}
    {cm : ModuleRecord} {snap : Ref}
    (hid : ¬(id = "")) (hres : env.resolve id = some rp)
    (hcm : lookupA rp t.requireCache = some cm)
    (hsnap : lookupA rp t.mockCache = some snap)
    (hr : cacheMock.restore env t (some id) = Except.ok t') :
    t' = restoreSet t rp cm snap ∧ exportsMap t' rp = heapGet t.heap snap := by
  rw [restore_some_ok hid hres, restoreOne_eq_set hcm hsnap] at hr
  cases hr
  refine ⟨rfl, ?_⟩
  rw [exportsMap_eq_of_lookup (show lookupA rp
      (restoreSet t rp cm snap).requireCache = some { cm with exportsRef := snap } from
        lookupA_setA_self _ (by rw [hcm]; rfl))]
  rfl

/-- Effect of a successful mock on the mocked module's live exports: they
become `Object.assign` of the previous exports with the overrides, whatever
the registry state was. -/
theorem mock_exports_assign {env : Env} {s s' : State} {p rp : String}
    {cm : ModuleRecord} (me : ExpMap)
    (hbound : cm.exportsRef < s.nextRef)
    (hres : env.resolve p = some rp)
    (hcm : lookupA rp s.requireCache = some cm)
    (hm : cacheMock env s p me = Except.ok s') :
    exportsMap s' rp = objAssign (exportsMap s rp) me := by
  cases h2 : lookupA rp s.mockCache with
  | some snap =>
    rw [cacheMock_ok_mocked me hres hcm h2] at hm
    cases hm
    rw [exportsMap_eq_of_lookup (show lookupA rp
        (assignState s cm me).requireCache = some cm from hcm)]
    show heapGet (heapSet s.heap cm.exportsRef
      (objAssign (heapGet s.heap cm.exportsRef) me)) cm.exportsRef =
      objAssign (exportsMap s rp) me
    rw [heapGet_heapSet_self, exportsMap_eq_of_lookup hcm]
  | none =>
    rw [cacheMock_ok_fresh me hres hcm h2] at hm
    cases hm
    rw [exportsMap_eq_of_lookup (show lookupA rp
        (assignState (snapState s rp cm) cm me).requireCache = some cm from hcm)]
    show heapGet (heapSet (heapSet s.heap s.nextRef (heapGet s.heap cm.exportsRef))
      cm.exportsRef
      (objAssign (heapGet (heapSet s.heap s.nextRef (heapGet s.heap cm.exportsRef))
        cm.exportsRef) me)) cm.exportsRef =
      objAssign (exportsMap s rp) me
    rw [heapGet_heapSet_self, heapGet_heapSet_ne _ _ (ne_of_lt hbound),
      exportsMap_eq_of_lookup hcm]

/-! ### Concrete witness states

A short execution under the concrete host `env0`: load `"m"` for real, then
mock / restore it in various ways. -/

deriving instance DecidableEq for Except

def wS : State := (realLoad env0 initState "m").1

def wS1 : State := (cacheMock env0 wS "m" [("a", "X")]).toOption.getD initState

def wS2 : State := (cacheMock.restore env0 wS1 (some "m")).toOption.getD initState

def wT1 : State := (cacheMock env0 wS "m" [("a", "V1")]).toOption.getD initState

def wT2 : State := (cacheMock env0 wT1 "m" [("b", "V2")]).toOption.getD initState

def wAll : State := (cacheMock.restore env0 wT2 none).toOption.getD initState

def wBad : State := (cacheMock env0 wS "m" []).toOption.getD initState

theorem reach_wS : Reachable env0 wS :=
  Reachable.step Reachable.init (Step.extLoad rfl)

theorem reach_wT2 : Reachable env0 wT2 :=
  Reachable.step
    (Reachable.step reach_wS
      (Step.mockOp (show cacheMock env0 wS "m" [("a", "V1")] = Except.ok wT1 by decide)))
    (Step.mockOp (show cacheMock env0 wT1 "m" [("b", "V2")] = Except.ok wT2 by decide))

theorem reach_wBad : Reachable env0 wBad :=
  Reachable.step reach_wS
    (Step.mockOp (show cacheMock env0 wS "m" [] = Except.ok wBad by decide))

/-! ### The claims -/

/-- Claim C1 (round-trip law): for every module whose live exports are `E0`
and that has no registry entry, `mock(id, overrides)` followed by
`restore(id)` leaves the module's exports structurally equal to `E0`; the
conclusion here is the (stronger) plain equality of the export mappings,
which implies equality of the key set and of every value binding. -/
theorem C1_round_trip {env : Env} {s s1 s2 : State} {id rp : String}
    {cm : ModuleRecord} (ov : ExpMap)
    (hreach : Reachable env s)
    (hres : env.resolve id = some rp)
    (hid : ¬(id = ""))
    (hcm : lookupA rp s.requireCache = some cm)
    (hno : lookupA rp s.mockCache = none)
    (hm : cacheMock env s id ov = Except.ok s1)
    (hr : cacheMock.restore env s1 (some id) = Except.ok s2) :
    exportsMap s2 rp = exportsMap s rp := by
  have hbound : cm.exportsRef < s.nextRef :=
    (reachable_inv hreach).expBound rp cm hcm
  obtain ⟨f1, f2, f3⟩ := mock_fresh_facts ov hbound hres hcm hno hm
  obtain ⟨heq, hexp⟩ := restore_exports hid hres f1 f2 hr
  rw [hexp, f3, exportsMap_eq_of_lookup hcm]

/-- Witness for C1 at a concrete run: load `"m"`, mock `a ↦ X`, restore. -/
theorem C1_round_trip_witness :
    exportsMap wS2 "m" = exportsMap wS "m" ∧
    exportsMap wS "m" = [("a", "A"), ("b", "B")] :=
  ⟨C1_round_trip [("a", "X")] reach_wS
      (show env0.resolve "m" = some "m" by decide)
      (by decide)
      (show lookupA "m" wS.requireCache = some ⟨0, true⟩ by decide)
      (by decide)
      (show cacheMock env0 wS "m" [("a", "X")] = Except.ok wS1 by decide)
      (show cacheMock.restore env0 wS1 (some "m") = Except.ok wS2 by decide),
    by decide⟩

/-- Claim C2 (first-mock-wins snapshot): a second mock of an already-mocked
identifier leaves the stored snapshot unchanged, so
`mock(id, ov1); mock(id, ov2); restore(id)` restores the exports from before
the first mock. -/
theorem C2_first_mock_wins {env : Env} {s s1 s2 s3 : State} {id rp : String}
    {cm : ModuleRecord} (ov1 ov2 : ExpMap)
    (hreach : Reachable env s)
    (hres : env.resolve id = some rp)
    (hid : ¬(id = ""))
    (hcm : lookupA rp s.requireCache = some cm)
    (hno : lookupA rp s.mockCache = none)
    (hm1 : cacheMock env s id ov1 = Except.ok s1)
    (hm2 : cacheMock env s1 id ov2 = Except.ok s2)
    (hr : cacheMock.restore env s2 (some id) = Except.ok s3) :
    lookupA rp s2.mockCache = lookupA rp s1.mockCache ∧
    exportsMap s3 rp = exportsMap s rp := by
  have hbound : cm.exportsRef < s.nextRef :=
    (reachable_inv hreach).expBound rp cm hcm
  obtain ⟨f1, f2, f3⟩ := mock_fresh_facts ov1 hbound hres hcm hno hm1
  rw [cacheMock_ok_mocked ov2 hres f1 f2] at hm2
  cases hm2
  have g1 : lookupA rp (assignState s1 cm ov2).requireCache = some cm := f1
  have g2 : lookupA rp (assignState s1 cm ov2).mockCache = some s.nextRef := f2
  have g3 : heapGet (assignState s1 cm ov2).heap s.nextRef =
      heapGet s.heap cm.exportsRef := by
    show heapGet (heapSet s1.heap cm.exportsRef
      (objAssign (heapGet s1.heap cm.exportsRef) ov2)) s.nextRef =
      heapGet s.heap cm.exportsRef
    rw [heapGet_heapSet_ne _ _ (ne_of_gt hbound), f3]
  refine ⟨rfl, ?_⟩
  obtain ⟨heq, hexp⟩ := restore_exports hid hres g1 g2 hr
  rw [hexp, g3, exportsMap_eq_of_lookup hcm]

/-- Witness for C2 at a concrete run: load `"m"`, mock `a ↦ V1`, then
`b ↦ V2`, restore: the original exports come back. -/
theorem C2_first_mock_wins_witness :
    lookupA "m" wT2.mockCache = lookupA "m" wT1.mockCache ∧
    exportsMap ((cacheMock.restore env0 wT2 (some "m")).toOption.getD initState) "m" =
      exportsMap wS "m" :=
  C2_first_mock_wins [("a", "V1")] [("b", "V2")] reach_wS
    (show env0.resolve "m" = some "m" by decide)
    (by decide)
    (show lookupA "m" wS.requireCache = some ⟨0, true⟩ by decide)
    (by decide)
    (show cacheMock env0 wS "m" [("a", "V1")] = Except.ok wT1 by decide)
    (show cacheMock env0 wT1 "m" [("b", "V2")] = Except.ok wT2 by decide)
    (show cacheMock.restore env0 wT2 (some "m") = Except.ok
      ((cacheMock.restore env0 wT2 (some "m")).toOption.getD initState) by decide)

/-- Claim C3 (merge-not-replace): a mock of a loaded module sets every key
named in the replacement mapping to its replacement value on the live
exports and leaves every other key bound to its previous value. -/
theorem C3_merge {env : Env} {s s' : State} {id rp : String} {cm : ModuleRecord}
    (me : ExpMap)
    (hreach : Reachable env s)
    (hres : env.resolve id = some rp)
    (hcm : lookupA rp s.requireCache = some cm)
    (hm : cacheMock env s id me = Except.ok s')
    (hnd : (me.map Prod.fst).Nodup) :
    (∀ k v, lookupA k me = some v → lookupA k (exportsMap s' rp) = some v) ∧
    (∀ k, lookupA k me = none →
      lookupA k (exportsMap s' rp) = lookupA k (exportsMap s rp)) := by
  have hbound : cm.exportsRef < s.nextRef :=
    (reachable_inv hreach).expBound rp cm hcm
  have hassign := mock_exports_assign me hbound hres hcm hm
  constructor
  · intro k v h
    rw [hassign]
    exact lookupA_objAssign_of_some _ hnd h
  · intro k h
    rw [hassign]
    exact lookupA_objAssign_of_none _ h

/-- Witness for C3 at a concrete run: mocking `a ↦ X` overrides `a` and
leaves `b` untouched. -/
theorem C3_merge_witness :
    lookupA "a" (exportsMap wS1 "m") = some "X" ∧
    lookupA "b" (exportsMap wS1 "m") = lookupA "b" (exportsMap wS "m") := by
  have h := C3_merge [("a", "X")] reach_wS
    (show env0.resolve "m" = some "m" by decide)
    (show lookupA "m" wS.requireCache = some ⟨0, true⟩ by decide)
    (show cacheMock env0 wS "m" [("a", "X")] = Except.ok wS1 by decide)
    (by decide)
  exact ⟨h.1 "a" "X" (by decide), h.2 "b" (by decide)⟩

/-- Claim C4 (bulk restore clears all): from any reachable state — in
particular after mocking N distinct identifiers — `restore()` with no
argument leaves zero registry entries and sets every registered module's
exports to its stored pre-mock snapshot (equal to the ghost pre-mock
exports). -/
theorem C4_bulk_restore {env : Env} {s s' : State}
    (hreach : Reachable env s)
    (hr : cacheMock.restore env s none = Except.ok s') :
    s'.mockCache = [] ∧
    (∀ rp r, lookupA rp s.mockCache = some r →
      exportsMap s' rp = heapGet s.heap r ∧ exportsMap s' rp = ghostMap s rp) := by
  have hInv := reachable_inv hreach
  rw [@restore_falsy env s none rfl] at hr
  cases hr
  obtain ⟨h1, h2, h3, h4, h5⟩ := foldl_restoreOne_spec s.mockCache s rfl
    hInv.mockLoaded hInv.mockKeysNodup
  refine ⟨h1, ?_⟩
  intro rp r h
  obtain ⟨m, hm, href⟩ := h4 rp r h
  have hexp : exportsMap ((s.mockCache.map Prod.fst).foldl cacheMock.restoreOne s) rp =
      heapGet s.heap r := by
    rw [exportsMap_eq_of_lookup hm, href, h2]
  exact ⟨hexp, by rw [hexp]; exact hInv.snapEq rp r h⟩

/-- Witness for C4 at a concrete run: after mocking `"m"` twice,
`restore()` clears the registry and brings back the pre-mock exports. -/
theorem C4_bulk_restore_witness :
    wAll.mockCache = [] ∧
    exportsMap wAll "m" = heapGet wT2.heap 1 ∧
    exportsMap wAll "m" = ghostMap wT2 "m" := by
  have h := C4_bulk_restore reach_wT2
    (show cacheMock.restore env0 wT2 none = Except.ok wAll by decide)
  have h2 := h.2 "m" 1 (by decide)
  exact ⟨h.1, h2.1, h2.2⟩

/-- The remaining `cacheMock` case (module not loaded but registry entry
present, unreachable under the invariant): still succeeds. -/
theorem cacheMock_ok_load_mocked {env : Env} {s : State} {p rp : String} {snap : Ref}
    (me : ExpMap) (hres : env.resolve p = some rp)
    (h1 : lookupA rp s.requireCache = none) (h2 : lookupA rp s.mockCache = some snap) :
    cacheMock env s p me =
      Except.ok (assignState (insertFresh s rp (env.loadExports rp) (rp :: s.loads))
        ⟨s.nextRef, true⟩ me) := by
  simp [cacheMock, hres, h1, h2, realLoad_eq, assignState, insertFresh]

/-- `cacheMock` succeeds whenever resolution succeeds. -/
theorem cacheMock_ok_exists {env : Env} {s : State} {p rp : String} (me : ExpMap)
    (hres : env.resolve p = some rp) :
    ∃ s', cacheMock env s p me = Except.ok s' := by
  cases h1 : lookupA rp s.requireCache with
  | some cm =>
    cases h2 : lookupA rp s.mockCache with
    | some snap => exact ⟨_, cacheMock_ok_mocked me hres h1 h2⟩
    | none => exact ⟨_, cacheMock_ok_fresh me hres h1 h2⟩
  | none =>
    cases h2 : lookupA rp s.mockCache with
    | some snap => exact ⟨_, cacheMock_ok_load_mocked me hres h1 h2⟩
    | none => exact ⟨_, cacheMock_ok_load me hres h1 h2⟩

/-- The preloader succeeds whenever resolution succeeds. -/
theorem require_ok_exists {env : Env} {s : State} {p rp : String} (e : ExpMap)
    (hres : env.resolve p = some rp) :
    ∃ out, cacheMock.require env s p e = Except.ok out := by
  cases h1 : lookupA rp s.requireCache with
  | some m => exact ⟨_, require_ok_hit e hres h1⟩
  | none => exact ⟨_, require_ok_miss e hres h1⟩

/-- Claim C5, counterexample: the biconditional "a registry entry for X
exists iff the live exports of X differ from X's pre-mock state" fails at
the reachable state obtained by mocking `"m"` with an empty override
mapping: the entry exists while the exports still equal the pre-mock
exports. -/
theorem C5_counterexample :
    ¬ (∀ (s : State), Reachable env0 s → ∀ rp : String,
        ((lookupA rp s.mockCache).isSome = true ↔ exportsMap s rp ≠ ghostMap s rp)) := by
  intro hclaim
  exact (hclaim wBad reach_wBad "m").mp (by decide) (by decide)

/-- Claim C5 as amended: in every reachable state, a module with no registry
entry has live exports equal to its pre-mock state, a registered module's
stored snapshot equals its pre-mock state, and exports differing from the
pre-mock state imply a registry entry — but entry presence does not imply a
difference. -/
theorem C5_registry_presence {env : Env} {s : State} (hreach : Reachable env s)
    (rp : String) :
    (lookupA rp s.mockCache = none → exportsMap s rp = ghostMap s rp) ∧
    (∀ r, lookupA rp s.mockCache = some r → heapGet s.heap r = ghostMap s rp) ∧
    (exportsMap s rp ≠ ghostMap s rp → (lookupA rp s.mockCache).isSome = true) := by
  have hInv := reachable_inv hreach
  refine ⟨hInv.unmockedEq rp, fun r h => hInv.snapEq rp r h, ?_⟩
  intro hne
  cases h : lookupA rp s.mockCache with
  | none => exact absurd (hInv.unmockedEq rp h) hne
  | some r => rfl

/-- Witness for the amended C5 at the concrete state with `"m"` loaded and
unmocked. -/
theorem C5_registry_presence_witness :
    exportsMap wS "m" = ghostMap wS "m" :=
  (C5_registry_presence reach_wS "m").1 (by decide)

/-- Claim C6, counterexample: `restore` called with the (supplied) empty
identifier does not raise even though the resolver fails on it, so "raises
exactly when the resolver fails on the supplied identifier" is false as
stated. -/
theorem C6_counterexample :
    env0.resolve "" = none ∧
    cacheMock.restore env0 initState (some "") = Except.ok initState := by
  exact ⟨by decide, by decide⟩

/-- Claim C6 as amended: `mock` and `preload` raise `ResolutionError`
exactly when the resolver fails; `restore` with a non-empty identifier
raises exactly when the resolver fails; `restore` with no identifier (and
with the falsy empty identifier) never raises. -/
theorem C6_resolution_policy (env : Env) (s : State) (p : String) (ov e : ExpMap) :
    ((cacheMock env s p ov = Except.error (ResolutionError.cannotResolve p)) ↔
      env.resolve p = none) ∧
    ((cacheMock.require env s p e = Except.error (ResolutionError.cannotResolve p)) ↔
      env.resolve p = none) ∧
    (¬(p = "") →
      ((cacheMock.restore env s (some p) =
        Except.error (ResolutionError.cannotResolve p)) ↔ env.resolve p = none)) ∧
    (∃ s', cacheMock.restore env s none = Except.ok s') ∧
    (∃ s', cacheMock.restore env s (some "") = Except.ok s') := by
  refine ⟨⟨?_, cacheMock_err ov⟩, ⟨?_, require_err e⟩, ?_,
    ⟨_, @restore_falsy env s none rfl⟩, ⟨_, @restore_falsy env s (some "") rfl⟩⟩
  · intro h
    cases hres : env.resolve p with
    | none => rfl
    | some rp =>
      obtain ⟨s', hs'⟩ := cacheMock_ok_exists ov hres
      rw [hs'] at h
      exact Except.noConfusion h
  · intro h
    cases hres : env.resolve p with
    | none => rfl
    | some rp =>
      obtain ⟨out, hout⟩ := require_ok_exists e hres
      rw [hout] at h
      exact Except.noConfusion h
  · intro hp
    constructor
    · intro h
      cases hres : env.resolve p with
      | none => rfl
      | some rp =>
        rw [restore_some_ok hp hres] at h
        exact Except.noConfusion h
    · exact restore_some_err hp

/-- Witness for the amended C6 at a concrete resolvable identifier. -/
theorem C6_resolution_policy_witness :
    ((cacheMock.restore env0 initState (some "m") =
      Except.error (ResolutionError.cannotResolve "m")) ↔ env0.resolve "m" = none) ∧
    (∃ s', cacheMock.restore env0 initState none = Except.ok s') :=
  ⟨(C6_resolution_policy env0 initState "m" [] []).2.2.1 (by decide),
   (C6_resolution_policy env0 initState "m" [] []).2.2.2.1⟩

/-- Claim C7 (preload contract): when a record already exists the preloader
is a no-op returning the state unchanged; otherwise it inserts a record
marked loaded whose exports object holds exactly the supplied initial
exports, touches no other record, and executes no real initialization code
(the `loads` ghost is unchanged). -/
theorem C7_preload_contract {env : Env} {s : State} {p rp : String} (e : ExpMap)
    (hres : env.resolve p = some rp) :
    (∀ m, lookupA rp s.requireCache = some m →
      cacheMock.require env s p e = Except.ok (s, none)) ∧
    (lookupA rp s.requireCache = none →
      cacheMock.require env s p e = Except.ok (insertFresh s rp e s.loads, none) ∧
      (∃ m, lookupA rp (insertFresh s rp e s.loads).requireCache = some m ∧
        m.loaded = true ∧ heapGet (insertFresh s rp e s.loads).heap m.exportsRef = e) ∧
      (insertFresh s rp e s.loads).loads = s.loads ∧
      (∀ rp', rp' ≠ rp → lookupA rp' (insertFresh s rp e s.loads).requireCache =
        lookupA rp' s.requireCache)) := by
  constructor
  · intro m hm
    exact require_ok_hit e hres hm
  · intro hnone
    refine ⟨require_ok_miss e hres hnone, ⟨⟨s.nextRef, true⟩, ?_, rfl, ?_⟩, rfl, ?_⟩
    · show lookupA rp ((rp, (⟨s.nextRef, true⟩ : ModuleRecord)) :: s.requireCache) =
        some ⟨s.nextRef, true⟩
      exact lookupA_cons_self _ _ _
    · show heapGet (heapSet s.heap s.nextRef e) s.nextRef = e
      exact heapGet_heapSet_self _ _ _
    · intro rp' hne
      show lookupA rp' ((rp, (⟨s.nextRef, true⟩ : ModuleRecord)) :: s.requireCache) =
        lookupA rp' s.requireCache
      exact lookupA_cons_ne hne _ _

/-- Witness for C7: a no-op preload of the already-loaded `"m"` and a real
insert for the unloaded `"q"`. -/
theorem C7_preload_contract_witness :
    cacheMock.require env0 wS "m" [("z", "Z")] = Except.ok (wS, none) ∧
    cacheMock.require env0 initState "q" [("z", "Z")] =
      Except.ok (insertFresh initState "q" [("z", "Z")] [], none) := by
  refine ⟨(C7_preload_contract [("z", "Z")]
      (show env0.resolve "m" = some "m" by decide)).1 ⟨0, true⟩
      (show lookupA "m" wS.requireCache = some ⟨0, true⟩ by decide), ?_⟩
  exact ((C7_preload_contract [("z", "Z")]
      (show env0.resolve "q" = some "q" by decide)).2
      (show lookupA "q" initState.requireCache = none by decide)).1

/-- Claim C8: the specification says `preload` returns the synthetic module
record it inserts, and the function's own `@returns` documentation agrees,
but the JavaScript body has no `return` statement: the call evaluates to
`undefined` (modelled `none`) even in the branch that inserts a record.
Evaluated here at the failing input: a resolvable, unloaded identifier. -/
theorem C8_preload_return_value :
    cacheMock.require env0 initState "m" [("z", "Z")] =
      Except.ok (insertFresh initState "m" [("z", "Z")] [], none) ∧
    (lookupA "m" (insertFresh initState "m" [("z", "Z")] []).requireCache).isSome
      = true := by
  exact ⟨by decide, by decide⟩

/-- Claim C9: `restore` with the falsy empty-string identifier never
resolves it and never raises; it behaves exactly like `restore()` with no
argument, restoring every registered entry. -/
theorem C9_restore_falsy_identifier (env : Env) (s : State) :
    cacheMock.restore env s (some "") = cacheMock.restore env s none ∧
    cacheMock.restore env s (some "") =
      Except.ok ((s.mockCache.map Prod.fst).foldl cacheMock.restoreOne s) := by
  refine ⟨?_, @restore_falsy env s (some "") rfl⟩
  rw [@restore_falsy env s (some "") rfl, @restore_falsy env s none rfl]

/-- Claim C10: restoring a mocked module swaps the stored snapshot
reference into the record's exports field — no copy (no allocation: the
heap and `nextRef` are unchanged) and no in-place mutation of the old
exports object, so a consumer holding the old exports reference keeps
observing the mocked values. -/
theorem C10_restore_swaps_reference {env : Env} {s s' : State} {id rp : String}
    {cm : ModuleRecord} {snap : Ref}
    (hid : ¬(id = ""))
    (hres : env.resolve id = some rp)
    (hcm : lookupA rp s.requireCache = some cm)
    (hsnap : lookupA rp s.mockCache = some snap)
    (hr : cacheMock.restore env s (some id) = Except.ok s') :
    lookupA rp s'.requireCache = some { cm with exportsRef := snap } ∧
    s'.heap = s.heap ∧
    s'.nextRef = s.nextRef ∧
    heapGet s'.heap cm.exportsRef = heapGet s.heap cm.exportsRef := by
  rw [restore_some_ok hid hres, restoreOne_eq_set hcm hsnap] at hr
  cases hr
  refine ⟨?_, rfl, rfl, rfl⟩
  show lookupA rp (setA rp { cm with exportsRef := snap } s.requireCache) =
    some { cm with exportsRef := snap }
  exact lookupA_setA_self _ (by rw [hcm]; rfl)

/-- Witness for C10 at the concrete mocked state: after restore the record
points at the snapshot object (reference 1) and the old exports object
(reference 0) still holds the mocked values. -/
theorem C10_restore_swaps_reference_witness :
    (lookupA "m" wS2.requireCache = some ⟨1, true⟩ ∧
      wS2.heap = wS1.heap ∧ wS2.nextRef = wS1.nextRef ∧
      heapGet wS2.heap 0 = heapGet wS1.heap 0) ∧
    heapGet wS2.heap 0 = [("a", "X"), ("b", "B")] := by
  refine ⟨C10_restore_swaps_reference (by decide)
    (show env0.resolve "m" = some "m" by decide)
    (show lookupA "m" wS1.requireCache = some ⟨0, true⟩ by decide)
    (show lookupA "m" wS1.mockCache = some 1 by decide)
    (show cacheMock.restore env0 wS1 (some "m") = Except.ok wS2 by decide), by decide⟩
